import Mathlib

/-!
Verification of the sandboxed-terminal repository (`terminal/sandbox.py`,
`terminal/commands.py`, `terminal/cli.py`, `terminal/utils.py`,
`terminal/web.py`) against its natural-language specification.

Paths are modelled as lists of name segments measured from the filesystem
root (an absolute path `/a/b` is `["a", "b"]`).  `pathlib.Path` construction
drops `"."` and empty segments and keeps `".."`; `Path.resolve(strict=False)`
collapses `".."` against the already-resolved prefix (the model is
symlink-free; in the code the confinement check runs on the fully resolved
candidate, so the confinement conclusions are insensitive to symlinks).
The filesystem is an association list from absolute resolved paths to
entries (regular file with `List Char` content, or directory).
-/

namespace Terminal

/-- Absolute filesystem path as a list of segments from the OS root. -/
abbrev AbsPath := List String

/-- Model of `Path.resolve(strict=False)` on a symlink-free tree:
each `".."` pops the last already-resolved segment (at the OS root it is a
no-op, as in POSIX), `"."` is dropped, plain segments are appended. -/
def normSegs (acc : AbsPath) : List String → AbsPath
  | [] => acc
  | s :: rest =>
    if s = ".." then normSegs acc.dropLast rest
    else if s = "." then normSegs acc rest
    else normSegs (acc ++ [s]) rest

/-- Resolve an absolute segment list (model of `resolve(strict=False)`). -/
def resolvePath (p : AbsPath) : AbsPath := normSegs [] p

/-- A parsed user path token: `pathlib.PurePath` keeps `".."`, drops `"."`
and empty components, and records whether the token was absolute. -/
structure PathTok where
  isAbs : Bool
  segs : List String
deriving DecidableEq, Repr

/-- Splitting a raw token on the `/` separator (model of path parsing). -/
def splitSlashGo (cur : List Char) : List Char → List (List Char)
  | [] => [cur.reverse]
  | c :: rest =>
    if c = '/' then cur.reverse :: splitSlashGo [] rest
    else splitSlashGo (c :: cur) rest

/-- Model of `pathlib.Path(target)`: split on `/`, drop empty and `"."`
components, record absoluteness from a leading `/`. -/
def parseTok (s : String) : PathTok :=
  { isAbs := s.data.head? = some '/'
    segs := ((splitSlashGo [] s.data).map String.mk).filter
      (fun c => decide (c ≠ "" ∧ c ≠ ".")) }

/-- The unresolved joined candidate `(self.cwd / p)` (or `p` when the token
is absolute), shared by both resolvers. -/
def joinedCand (cwd : AbsPath) (target : String) : AbsPath :=
  if (parseTok target).isAbs then (parseTok target).segs
  else cwd ++ (parseTok target).segs

/-- SandboxManager.resolve_read (terminal/sandbox.py, lines 24-35; the same
logic appears as Terminal._resolve_read_path in terminal.py).  The joined
candidate is fully resolved and must have the sandbox root as a prefix
(this is what a successful `candidate.relative_to(sandbox_root)` checks). -/
def resolve_read (root cwd : AbsPath) (target : String) : Except String AbsPath :=
  if root.isPrefixOf (resolvePath (joinedCand cwd target)) then
    Except.ok (resolvePath (joinedCand cwd target))
  else Except.error ("Access denied: path escapes sandbox: " ++ target)

/-- SandboxManager.resolve_write (terminal/sandbox.py, lines 37-49; same
logic as Terminal._resolve_write_path in terminal.py).  Only the parent of
the unresolved candidate is resolved and validated; the candidate itself is
returned unresolved. -/
def resolve_write (root cwd : AbsPath) (target : String) : Except String AbsPath :=
  if root.isPrefixOf (resolvePath (joinedCand cwd target).dropLast) then
    Except.ok (joinedCand cwd target)
  else Except.error ("Access denied: path escapes sandbox (parent): " ++ target)

theorem normSegs_append (xs ys : List String) (acc : AbsPath) :
    normSegs acc (xs ++ ys) = normSegs (normSegs acc xs) ys := by
  induction xs generalizing acc with
  | nil => rfl
  | cons s rest ih =>
    simp only [List.cons_append, normSegs]
    split
    · exact ih _
    · split
      · exact ih _
      · exact ih _

theorem normSegs_single_plain (acc : AbsPath) (s : String)
    (h1 : s ≠ "..") (h2 : s ≠ ".") : normSegs acc [s] = acc ++ [s] := by
  simp [normSegs, h1, h2]

theorem normSegs_single_dotdot (acc : AbsPath) :
    normSegs acc [".."] = acc.dropLast := by
  simp [normSegs]

theorem normSegs_single_dot (acc : AbsPath) :
    normSegs acc ["."] = acc := by
  simp [normSegs]

/-- C1: for every path token (any number of `..` segments, absolute or
relative) and any cursor, a successful `resolve_read` returns a path that
is a descendant of (or equal to) the confinement root; tokens whose
resolution leaves the root are rejected with a SandboxError, so a path
outside the root is never returned. -/
theorem resolve_read_confined (root cwd : AbsPath) (target : String)
    (p : AbsPath) (h : resolve_read root cwd target = Except.ok p) :
    root <+: p := by
  by_cases hc : root.isPrefixOf (resolvePath (joinedCand cwd target)) = true
  · rw [resolve_read, if_pos hc] at h
    cases h
    exact List.isPrefixOf_iff_prefix.mp hc
  · rw [resolve_read, if_neg hc] at h
    cases h

/-- Witness for C1: the escaping token `../../ws/a` from the cursor `/ws`
resolves to `/ws/a`, inside the root. -/
theorem resolve_read_confined_witness :
    resolve_read ["ws"] ["ws"] "../../ws/a" = Except.ok ["ws", "a"] ∧
      ["ws"] <+: ["ws", "a"] :=
  ⟨by rfl, resolve_read_confined ["ws"] ["ws"] "../../ws/a" ["ws", "a"] (by rfl)⟩

/-- Counterexample for C2: with the cursor at the confinement root `/ws`,
`resolve_write` accepts the token `..` (its parent, `/ws` itself, passes
the check) and returns `/ws/..`, whose resolved absolute form is the parent
of the confinement root, which is not a descendant of the root. -/
theorem resolve_write_escape_counterexample :
    resolve_write ["ws"] ["ws"] ".." = Except.ok ["ws", ".."] ∧
      resolvePath ["ws", ".."] = [] ∧ ¬ (["ws"] <+: ([] : AbsPath)) := by
  refine ⟨by rfl, by rfl, ?_⟩
  intro h
  have := h.length_le
  simp at this

/-- C2 (amended): a successful `resolve_write` guarantees that the parent
of the returned candidate resolves to a descendant of the confinement root;
the full returned path also resolves inside the root provided its final
segment is not `..`.  (A trailing `..` can escape, see the counterexample.) -/
theorem resolve_write_parent_confined (root cwd : AbsPath) (target : String)
    (p : AbsPath) (h : resolve_write root cwd target = Except.ok p) :
    root <+: resolvePath p.dropLast ∧
      (p.getLastD "" ≠ ".." → root <+: resolvePath p) := by
  by_cases hc : root.isPrefixOf (resolvePath (joinedCand cwd target).dropLast) = true
  · rw [resolve_write, if_pos hc] at h
    cases h
    have hparent : root <+: resolvePath (joinedCand cwd target).dropLast :=
      List.isPrefixOf_iff_prefix.mp hc
    refine ⟨hparent, ?_⟩
    intro hlast
    rcases List.eq_nil_or_concat (joinedCand cwd target) with hnil | ⟨A, s, hAs⟩
    · rw [hnil] at hparent ⊢
      simpa using hparent
    · rw [hAs] at hparent hlast ⊢
      rw [List.concat_eq_append] at hparent hlast ⊢
      rw [List.dropLast_concat] at hparent
      rw [List.getLastD_concat] at hlast
      by_cases hdot : s = "."
      · subst hdot
        rw [resolvePath, normSegs_append, normSegs_single_dot]
        exact hparent
      · rw [resolvePath, normSegs_append, normSegs_single_plain _ _ hlast hdot]
        calc root <+: normSegs [] A := hparent
          _ <+: normSegs [] A ++ [s] := List.prefix_append _ _
  · rw [resolve_write, if_neg hc] at h
    cases h

/-- Witness for C2 (amended): writing `sub/../file` from the cursor `/ws`
is accepted and the returned candidate resolves to `/ws/file`, inside the
root. -/
theorem resolve_write_parent_confined_witness :
    resolve_write ["ws"] ["ws"] "sub/../file" =
        Except.ok ["ws", "sub", "..", "file"] ∧
      (["ws"] <+: resolvePath ["ws", "sub", "..", "file"].dropLast ∧
        (["ws", "sub", "..", "file"].getLastD "" ≠ ".." →
          ["ws"] <+: resolvePath ["ws", "sub", "..", "file"])) :=
  ⟨by rfl,
    resolve_write_parent_confined ["ws"] ["ws"] "sub/../file"
      ["ws", "sub", "..", "file"] (by rfl)⟩

/-- A filesystem node: a regular file with its byte content, or a directory. -/
inductive Entry
  | file (content : List Char)
  | dir
deriving DecidableEq, Repr

/-- The filesystem: an association list from resolved absolute paths to
entries (first binding wins). -/
abbrev FS := List (AbsPath × Entry)

def lookupFS : FS → AbsPath → Option Entry
  | [], _ => none
  | (q, e) :: rest, p => if q = p then some e else lookupFS rest p

/-- Drop the binding for `p` (model of `unlink`). -/
def eraseKey (fs : FS) (p : AbsPath) : FS :=
  fs.filter (fun kv => decide (kv.1 ≠ p))

/-- Create or overwrite the binding for `p`. -/
def setEntry (fs : FS) (p : AbsPath) (e : Entry) : FS :=
  (p, e) :: eraseKey fs p

/-- Model of `shutil.rmtree`: delete the directory and everything below it. -/
def rmTree (fs : FS) (p : AbsPath) : FS :=
  fs.filter (fun kv => !(p.isPrefixOf kv.1))

theorem lookupFS_eraseKey_ne (fs : FS) (p q : AbsPath) (h : q ≠ p) :
    lookupFS (eraseKey fs p) q = lookupFS fs q := by
  induction fs with
  | nil => rfl
  | cons kv rest ih =>
    obtain ⟨k, e⟩ := kv
    by_cases hk : k = p
    · subst hk
      simp only [eraseKey, List.filter]
      rw [lookupFS, if_neg (fun hkq => h hkq.symm)]
      simpa [eraseKey] using ih
    · simp only [eraseKey, List.filter, decide_eq_true hk]
      rw [lookupFS, lookupFS]
      by_cases hq : k = q
      · simp [hq]
      · rw [if_neg hq, if_neg hq]
        simpa [eraseKey] using ih

theorem lookupFS_setEntry_self (fs : FS) (p : AbsPath) (e : Entry) :
    lookupFS (setEntry fs p e) p = some e := by
  simp [setEntry, lookupFS]

theorem lookupFS_setEntry_ne (fs : FS) (p q : AbsPath) (e : Entry) (h : q ≠ p) :
    lookupFS (setEntry fs p e) q = lookupFS fs q := by
  rw [setEntry, lookupFS, if_neg (fun hpq => h hpq.symm)]
  exact lookupFS_eraseKey_ne fs p q h

/-- Python `str.startswith("-")` as used for flag detection. -/
def isFlagTok (a : String) : Bool := a.data.head? = some '-'

def flagsOf (args : List String) : List String := args.filter isFlagTok

/-- The first non-flag argument (`[a for a in args if not a.startswith("-")][0]`;
`none` models the uncaught IndexError when every argument is a flag). -/
def firstNonFlag (args : List String) : Option String :=
  (args.filter (fun a => !(isFlagTok a))).head?

/-- Python exceptions that can cross a handler boundary in this code. -/
inductive PyExc
  | sandboxError (msg : String)
  | fileNotFound (p : AbsPath)
  | isADirectory (p : AbsPath)
  | notADirectory (p : AbsPath)
  | fileExists (p : AbsPath)
  | indexError
  | eofError
deriving DecidableEq, Repr

def joinSlash : List String → String
  | [] => ""
  | [s] => s
  | s :: rest => s ++ "/" ++ joinSlash rest

/-- terminal/utils.py to_sandbox_posix: the path relative to the sandbox
root as POSIX text, or the absolute POSIX form when outside the root. -/
def to_sandbox_posix (p root : AbsPath) : String :=
  if root.isPrefixOf p then
    (if p.drop root.length = [] then "." else joinSlash (p.drop root.length))
  else "/" ++ joinSlash p

def rmMissingMsg (root target : AbsPath) : String :=
  "rm: cannot remove \x27" ++ to_sandbox_posix target root ++
    "\x27: No such file or directory"

def rmIsDirMsg (root target : AbsPath) : String :=
  "rm: cannot remove \x27" ++ to_sandbox_posix target root ++
    "\x27: Is a directory (use -r)"

/-- CommandsExecutor.rm (terminal/commands.py, lines 70-86).  Flags are the
arguments starting with `-`; the target is the first non-flag argument and
is read-resolved; a missing target is reported; a file is unlinked; a
directory is removed recursively only under `-r`/`-rf`/`-fr`, otherwise an
is-a-directory error line is printed and nothing changes. -/
def rmCmd (root cwd : AbsPath) (fs : FS) (args : List String) :
    Except PyExc (List String × FS) :=
  if args = [] then Except.ok (["rm: missing operand"], fs)
  else
    match firstNonFlag args with
    | none => Except.error PyExc.indexError
    | some path =>
      match resolve_read root cwd path with
      | Except.error m => Except.error (PyExc.sandboxError m)
      | Except.ok target =>
        match lookupFS fs target with
        | none => Except.ok ([rmMissingMsg root target], fs)
        | some (Entry.file _) => Except.ok ([], eraseKey fs target)
        | some Entry.dir =>
          if "-r" ∈ flagsOf args ∨ "-rf" ∈ flagsOf args ∨ "-fr" ∈ flagsOf args then
            Except.ok ([], rmTree fs target)
          else Except.ok ([rmIsDirMsg root target], fs)

/-- C4: rm on an existing directory without a recursive flag prints a
directory-type error and leaves the filesystem unchanged; with `-r`/`-rf`/
`-fr` it removes the directory and exactly the entries below it; rm on a
missing target reports an error line and changes nothing. -/
theorem rm_directory_policy (root cwd : AbsPath) (fs : FS) (args : List String)
    (path : String) (target : AbsPath)
    (hargs : args ≠ [])
    (hpath : firstNonFlag args = some path)
    (hres : resolve_read root cwd path = Except.ok target) :
    (lookupFS fs target = some Entry.dir →
      ¬ ("-r" ∈ flagsOf args ∨ "-rf" ∈ flagsOf args ∨ "-fr" ∈ flagsOf args) →
      rmCmd root cwd fs args = Except.ok ([rmIsDirMsg root target], fs)) ∧
    (lookupFS fs target = some Entry.dir →
      ("-r" ∈ flagsOf args ∨ "-rf" ∈ flagsOf args ∨ "-fr" ∈ flagsOf args) →
      rmCmd root cwd fs args = Except.ok ([], rmTree fs target) ∧
        ∀ q e, (q, e) ∈ rmTree fs target ↔ ((q, e) ∈ fs ∧ ¬ target <+: q)) ∧
    (lookupFS fs target = none →
      rmCmd root cwd fs args = Except.ok ([rmMissingMsg root target], fs)) := by
  refine ⟨?_, ?_, ?_⟩
  · intro hdir hnoflag
    rw [rmCmd, if_neg hargs]
    simp only [hpath, hres, hdir]
    rw [if_neg hnoflag]
  · intro hdir hflag
    refine ⟨?_, ?_⟩
    · rw [rmCmd, if_neg hargs]
      simp only [hpath, hres, hdir]
      rw [if_pos hflag]
    · intro q e
      simp [rmTree, List.mem_filter, ← List.isPrefixOf_iff_prefix]
  · intro hmiss
    rw [rmCmd, if_neg hargs]
    simp only [hpath, hres, hmiss]

/-- Witness for C4: removing the directory `d` without a flag in a sandbox
holding `/ws/d`, `/ws/d/x` and `/ws/f` prints the is-a-directory error and
leaves the filesystem untouched. -/
theorem rm_directory_policy_witness :
    (["d"] : List String) ≠ [] ∧
      firstNonFlag ["d"] = some "d" ∧
      resolve_read ["ws"] ["ws"] "d" = Except.ok ["ws", "d"] ∧
      lookupFS [(["ws"], Entry.dir), (["ws", "d"], Entry.dir),
          (["ws", "d", "x"], Entry.file []), (["ws", "f"], Entry.file [])]
        (["ws", "d"]) = some Entry.dir ∧
      rmCmd ["ws"] ["ws"]
          [(["ws"], Entry.dir), (["ws", "d"], Entry.dir),
            (["ws", "d", "x"], Entry.file []), (["ws", "f"], Entry.file [])]
          ["d"] =
        Except.ok ([rmIsDirMsg ["ws"] ["ws", "d"]],
          [(["ws"], Entry.dir), (["ws", "d"], Entry.dir),
            (["ws", "d", "x"], Entry.file []), (["ws", "f"], Entry.file [])]) := by
  refine ⟨by simp, by rfl, by rfl, by rfl, ?_⟩
  exact (rm_directory_policy ["ws"] ["ws"] _ ["d"] "d" ["ws", "d"]
    (by simp) (by rfl) (by rfl)).1 (by rfl) (by decide)

def catNoFileMsg (root target : AbsPath) : String :=
  "cat: " ++ to_sandbox_posix target root ++ ": No such file"

def catTooLargeMsg (root target : AbsPath) (size : Nat) : String :=
  "cat: " ++ to_sandbox_posix target root ++ ": File too large to display (" ++
    toString size ++ " bytes)"

/-- CommandsExecutor.cat, per-file loop (terminal/commands.py, lines
108-120).  A SandboxError is caught per argument and printed; a missing or
non-regular target prints a no-such-file line; a file larger than
`100 * 1024` bytes prints the too-large notice; otherwise the file content
is printed (`read_text`). -/
def catFiles (root cwd : AbsPath) (fs : FS) : List String → List String
  | [] => []
  | a :: rest =>
    match resolve_read root cwd a with
    | Except.error m => m :: catFiles root cwd fs rest
    | Except.ok target =>
      match lookupFS fs target with
      | some (Entry.file c) =>
        if c.length > 100 * 1024 then
          catTooLargeMsg root target c.length :: catFiles root cwd fs rest
        else String.mk c :: catFiles root cwd fs rest
      | _ => catNoFileMsg root target :: catFiles root cwd fs rest

/-- CommandsExecutor.cat (terminal/commands.py, lines 104-120). -/
def catCmd (root cwd : AbsPath) (fs : FS) (args : List String) : List String :=
  if args = [] then ["cat: missing file operand"] else catFiles root cwd fs args

/-- C10: cat on an existing regular file whose size exceeds `100 * 1024`
bytes does not print the content; it prints one too-large notice naming the
file and its byte size and continues with the remaining arguments. -/
theorem cat_large_file_notice (root cwd : AbsPath) (fs : FS) (a : String)
    (rest : List String) (target : AbsPath) (c : List Char)
    (hres : resolve_read root cwd a = Except.ok target)
    (hfile : lookupFS fs target = some (Entry.file c))
    (hsize : c.length > 100 * 1024) :
    catCmd root cwd fs (a :: rest) =
      catTooLargeMsg root target c.length :: catFiles root cwd fs rest := by
  rw [catCmd, if_neg (by simp : ¬(a :: rest = []))]
  simp only [catFiles, hres, hfile]
  rw [if_pos hsize]

/-- Witness for C10: a 102401-byte file triggers the too-large notice and
the remaining argument is still processed. -/
theorem cat_large_file_notice_witness :
    resolve_read ["ws"] ["ws"] "big.txt" = Except.ok ["ws", "big.txt"] ∧
      lookupFS [(["ws", "big.txt"], Entry.file (List.replicate 102401 'a'))]
        (["ws", "big.txt"]) = some (Entry.file (List.replicate 102401 'a')) ∧
      (List.replicate 102401 'a').length > 100 * 1024 ∧
      catCmd ["ws"] ["ws"]
          [(["ws", "big.txt"], Entry.file (List.replicate 102401 'a'))]
          ["big.txt", "other.txt"] =
        catTooLargeMsg ["ws"] ["ws", "big.txt"] (List.replicate 102401 'a').length ::
          catFiles ["ws"] ["ws"]
            [(["ws", "big.txt"], Entry.file (List.replicate 102401 'a'))]
            ["other.txt"] := by
  refine ⟨by rfl, by rfl, by simp only [List.length_replicate]; decide, ?_⟩
  exact cat_large_file_notice ["ws"] ["ws"] _ "big.txt" ["other.txt"]
    ["ws", "big.txt"] (List.replicate 102401 'a') (by rfl) (by rfl)
    (by simp only [List.length_replicate]; decide)

/-- All nonempty prefixes of a path, shortest first (the chain of
directories that `mkdir(parents=True)` walks). -/
def pathInits (p : AbsPath) : List AbsPath :=
  (List.range p.length).map (fun i => p.take (i + 1))

/-- Walk a chain of directories, creating the missing ones (the recursive
parent creation inside `Path.mkdir(parents=True, exist_ok=True)`); an
existing regular file in the chain raises (ENOTDIR). -/
def ensureDirs (fs : FS) : List AbsPath → Except PyExc FS
  | [] => Except.ok fs
  | q :: qs =>
    match lookupFS fs q with
    | some (Entry.file _) => Except.error (PyExc.notADirectory q)
    | some Entry.dir => ensureDirs fs qs
    | none => ensureDirs (setEntry fs q Entry.dir) qs

/-- `Path(target).mkdir(parents=True, exist_ok=True)`: create all missing
ancestors, then the target; an existing directory target is accepted, an
existing file target raises FileExistsError. -/
def mkdirParents (fs : FS) (p : AbsPath) : Except PyExc FS :=
  match ensureDirs fs (pathInits p.dropLast) with
  | Except.error e => Except.error e
  | Except.ok fs1 =>
    match lookupFS fs1 p with
    | some (Entry.file _) => Except.error (PyExc.fileExists p)
    | some Entry.dir => Except.ok fs1
    | none => Except.ok (setEntry fs1 p Entry.dir)

/-- `Path(target).mkdir(exist_ok=False)`: any existing target raises
FileExistsError; the parent must already exist as a directory (the empty
parent is the OS root, which always exists). -/
def mkdirOne (fs : FS) (p : AbsPath) : Except PyExc FS :=
  match lookupFS fs p with
  | some _ => Except.error (PyExc.fileExists p)
  | none =>
    if p.dropLast = [] then Except.ok (setEntry fs p Entry.dir)
    else
      match lookupFS fs p.dropLast with
      | some Entry.dir => Except.ok (setEntry fs p Entry.dir)
      | some (Entry.file _) => Except.error (PyExc.notADirectory p)
      | none => Except.error (PyExc.fileNotFound p)

def mkdirExistsMsg (path : String) : String :=
  "mkdir: cannot create directory \x27" ++ path ++ "\x27: File exists"

/-- CommandsExecutor.mkdir (terminal/commands.py, lines 51-68).  The target
is the first non-flag argument, write-resolved; `-p` selects
`mkdir(parents=True, exist_ok=True)`; FileExistsError is caught and printed
(the filesystem operations act on the resolved form of the returned
candidate; the permission branch is not modelled, the model has no
permission state). -/
def mkdirCmd (root cwd : AbsPath) (fs : FS) (args : List String) :
    Except PyExc (List String × FS) :=
  if args = [] then Except.ok (["mkdir: missing operand"], fs)
  else
    match firstNonFlag args with
    | none => Except.error PyExc.indexError
    | some path =>
      match resolve_write root cwd path with
      | Except.error m => Except.error (PyExc.sandboxError m)
      | Except.ok target =>
        if "-p" ∈ flagsOf args then
          match mkdirParents fs (resolvePath target) with
          | Except.ok fs2 => Except.ok ([], fs2)
          | Except.error (PyExc.fileExists _) => Except.ok ([mkdirExistsMsg path], fs)
          | Except.error e => Except.error e
        else
          match mkdirOne fs (resolvePath target) with
          | Except.ok fs2 => Except.ok ([], fs2)
          | Except.error (PyExc.fileExists _) => Except.ok ([mkdirExistsMsg path], fs)
          | Except.error e => Except.error e

theorem ensureDirs_all_dir (qs : List AbsPath) (fs : FS)
    (h : ∀ q ∈ qs, lookupFS fs q = some Entry.dir) :
    ensureDirs fs qs = Except.ok fs := by
  induction qs with
  | nil => rfl
  | cons q qs ih =>
    rw [ensureDirs, h q (List.mem_cons_self q qs)]
    exact ih (fun q' hq' => h q' (List.mem_cons_of_mem q hq'))

theorem ensureDirs_mono (qs : List AbsPath) (fs fs' : FS)
    (h : ensureDirs fs qs = Except.ok fs') :
    ∀ p e, lookupFS fs p = some e → lookupFS fs' p = some e := by
  induction qs generalizing fs with
  | nil =>
    cases h
    exact fun p e hp => hp
  | cons q qs ih =>
    rw [ensureDirs] at h
    split at h
    · cases h
    · exact ih fs h
    case h_3 hq =>
      intro p e hp
      refine ih (setEntry fs q Entry.dir) h p e ?_
      have hne : p ≠ q := fun hpq => by rw [hpq, hq] at hp; cases hp
      rw [lookupFS_setEntry_ne fs q p Entry.dir hne]
      exact hp

theorem ensureDirs_sets (qs : List AbsPath) (fs fs' : FS)
    (h : ensureDirs fs qs = Except.ok fs') :
    ∀ q ∈ qs, lookupFS fs' q = some Entry.dir := by
  induction qs generalizing fs with
  | nil => intro q hq; cases hq
  | cons q qs ih =>
    rw [ensureDirs] at h
    split at h
    · cases h
    case h_2 hq =>
      intro r hr
      rcases List.mem_cons.mp hr with hrq | hrs
      · subst hrq
        exact ensureDirs_mono qs fs fs' h r Entry.dir hq
      · exact ih fs h r hrs
    case h_3 hq =>
      intro r hr
      rcases List.mem_cons.mp hr with hrq | hrs
      · subst hrq
        exact ensureDirs_mono qs _ fs' h r Entry.dir (lookupFS_setEntry_self fs r Entry.dir)
      · exact ih _ h r hrs

theorem ensureDirs_lookup_cases (qs : List AbsPath) (fs fs' : FS)
    (h : ensureDirs fs qs = Except.ok fs') :
    ∀ r, lookupFS fs' r = lookupFS fs r ∨ lookupFS fs' r = some Entry.dir := by
  induction qs generalizing fs with
  | nil => cases h; exact fun r => Or.inl rfl
  | cons q qs ih =>
    rw [ensureDirs] at h
    split at h
    · cases h
    · exact ih fs h
    case h_3 hq =>
      intro r
      rcases ih _ h r with hr | hr
      · by_cases hrq : r = q
        · subst hrq
          rw [lookupFS_setEntry_self] at hr
          exact Or.inr hr
        · rw [lookupFS_setEntry_ne fs q r Entry.dir hrq] at hr
          exact Or.inl hr
      · exact Or.inr hr

theorem ensureDirs_total (qs : List AbsPath) (fs : FS)
    (h : ∀ q ∈ qs, ∀ c, lookupFS fs q ≠ some (Entry.file c)) :
    ∃ fs', ensureDirs fs qs = Except.ok fs' := by
  induction qs generalizing fs with
  | nil => exact ⟨fs, rfl⟩
  | cons q qs ih =>
    rw [ensureDirs]
    cases hq : lookupFS fs q with
    | none =>
      refine ih (setEntry fs q Entry.dir) ?_
      intro r hr c
      by_cases hrq : r = q
      · subst hrq
        rw [lookupFS_setEntry_self]
        intro hcontra
        cases hcontra
      · rw [lookupFS_setEntry_ne fs q r Entry.dir hrq]
        exact h r (List.mem_cons_of_mem q hr) c
    | some e =>
      cases e with
      | file c => exact absurd hq (h q (List.mem_cons_self q qs) c)
      | dir => exact ih fs (fun r hr c => h r (List.mem_cons_of_mem q hr) c)

theorem mem_pathInits_dropLast_subset (p q : AbsPath)
    (h : q ∈ pathInits p.dropLast) : q ∈ pathInits p := by
  simp only [pathInits, List.mem_map, List.mem_range] at h ⊢
  obtain ⟨i, hi, rfl⟩ := h
  rw [List.length_dropLast] at hi
  refine ⟨i, by omega, ?_⟩
  rw [List.dropLast_eq_take, List.take_take]
  congr 1
  omega

theorem mem_pathInits_dropLast_ne (p q : AbsPath)
    (h : q ∈ pathInits p.dropLast) : q ≠ p := by
  simp only [pathInits, List.mem_map, List.mem_range] at h
  obtain ⟨i, hi, rfl⟩ := h
  rw [List.length_dropLast] at hi
  intro hq
  have hlen := congrArg List.length hq
  rw [List.length_take, List.length_dropLast] at hlen
  omega

theorem self_mem_pathInits (p : AbsPath) (hp : p ≠ []) : p ∈ pathInits p := by
  simp only [pathInits, List.mem_map, List.mem_range]
  have hlen : 0 < p.length := List.length_pos.mpr hp
  exact ⟨p.length - 1, by omega, by rw [show p.length - 1 + 1 = p.length by omega, List.take_length]⟩

theorem mkdirParents_succeeds (fs : FS) (p : AbsPath) (hp : p ≠ [])
    (hnofile : ∀ q ∈ pathInits p, ∀ c, lookupFS fs q ≠ some (Entry.file c)) :
    ∃ fs1, mkdirParents fs p = Except.ok fs1 := by
  obtain ⟨fs0, h0⟩ := ensureDirs_total (pathInits p.dropLast) fs
    (fun q hq c => hnofile q (mem_pathInits_dropLast_subset p q hq) c)
  cases hp0 : lookupFS fs0 p with
  | none => exact ⟨setEntry fs0 p Entry.dir, by simp only [mkdirParents, h0, hp0]⟩
  | some e =>
    cases e with
    | dir => exact ⟨fs0, by simp only [mkdirParents, h0, hp0]⟩
    | file c =>
      exfalso
      rcases ensureDirs_lookup_cases _ fs fs0 h0 p with hcase | hcase
      · rw [hp0] at hcase
        exact hnofile p (self_mem_pathInits p hp) c hcase.symm
      · rw [hp0] at hcase
        cases hcase

theorem mkdirParents_idem (fs fs1 : FS) (p : AbsPath)
    (h : mkdirParents fs p = Except.ok fs1) :
    mkdirParents fs1 p = Except.ok fs1 := by
  rw [mkdirParents] at h
  split at h
  · cases h
  case h_2 fs0 h0 =>
    have hsets := ensureDirs_sets _ fs fs0 h0
    split at h
    · cases h
    case h_2 hdir =>
      cases h
      have hens : ensureDirs fs1 (pathInits p.dropLast) = Except.ok fs1 :=
        ensureDirs_all_dir _ fs1 (fun q hq => hsets q hq)
      simp only [mkdirParents, hens, hdir]
    case h_3 hnone =>
      cases h
      have hens : ensureDirs (setEntry fs0 p Entry.dir) (pathInits p.dropLast) =
          Except.ok (setEntry fs0 p Entry.dir) := by
        refine ensureDirs_all_dir _ _ (fun q hq => ?_)
        rw [lookupFS_setEntry_ne fs0 p q Entry.dir (mem_pathInits_dropLast_ne p q hq)]
        exact hsets q hq
      simp only [mkdirParents, hens, lookupFS_setEntry_self]

/-- C5: with `-p`, creating directory `d` twice succeeds both times and the
second run leaves the filesystem exactly as the first run left it; without
`-p`, the first run succeeds and the second run fails with the
`File exists` error line (and changes nothing). -/
theorem mkdir_idempotence (root cwd : AbsPath) (fs : FS) (d : String)
    (target : AbsPath)
    (hd : isFlagTok d = false)
    (hw : resolve_write root cwd d = Except.ok target)
    (hp : resolvePath target ≠ [])
    (hnofile : ∀ q ∈ pathInits (resolvePath target), ∀ c,
      lookupFS fs q ≠ some (Entry.file c))
    (hparent : (resolvePath target).dropLast = [] ∨
      lookupFS fs (resolvePath target).dropLast = some Entry.dir)
    (hmissing : lookupFS fs (resolvePath target) = none) :
    (∃ fs1, mkdirCmd root cwd fs ["-p", d] = Except.ok ([], fs1) ∧
      mkdirCmd root cwd fs1 ["-p", d] = Except.ok ([], fs1)) ∧
    (mkdirCmd root cwd fs [d] =
        Except.ok ([], setEntry fs (resolvePath target) Entry.dir) ∧
      mkdirCmd root cwd (setEntry fs (resolvePath target) Entry.dir) [d] =
        Except.ok ([mkdirExistsMsg d],
          setEntry fs (resolvePath target) Entry.dir)) := by
  have hflagp : isFlagTok "-p" = true := by rfl
  have hfirstp : firstNonFlag ["-p", d] = some d := by
    simp [firstNonFlag, List.filter, hflagp, hd]
  have hfirst : firstNonFlag [d] = some d := by
    simp [firstNonFlag, List.filter, hd]
  have hmemp : "-p" ∈ flagsOf ["-p", d] := by
    simp [flagsOf, List.filter, hflagp, hd]
  have hnomem : ¬ ("-p" ∈ flagsOf [d]) := by
    simp [flagsOf, List.filter, hd]
  constructor
  · obtain ⟨fs1, h1⟩ := mkdirParents_succeeds fs (resolvePath target) hp hnofile
    refine ⟨fs1, ?_, ?_⟩
    · rw [mkdirCmd, if_neg (by simp)]
      simp only [hfirstp, hw]
      rw [if_pos hmemp, h1]
    · rw [mkdirCmd, if_neg (by simp)]
      simp only [hfirstp, hw]
      rw [if_pos hmemp, mkdirParents_idem fs fs1 (resolvePath target) h1]
  · constructor
    · rw [mkdirCmd, if_neg (by simp)]
      simp only [hfirst, hw]
      rw [if_neg hnomem, mkdirOne, hmissing]
      rcases hparent with hroot | hdir
      · rw [if_pos hroot]
      · by_cases hroot : (resolvePath target).dropLast = []
        · rw [if_pos hroot]
        · rw [if_neg hroot, hdir]
    · rw [mkdirCmd, if_neg (by simp)]
      simp only [hfirst, hw]
      rw [if_neg hnomem, mkdirOne, lookupFS_setEntry_self]

/-- Witness for C5: creating `sub` under the root cursor in a sandbox that
holds only the root directory. -/
theorem mkdir_idempotence_witness :
    isFlagTok "sub" = false ∧
      resolve_write ["ws"] ["ws"] "sub" = Except.ok ["ws", "sub"] ∧
      resolvePath ["ws", "sub"] ≠ [] ∧
      ((∃ fs1, mkdirCmd ["ws"] ["ws"] [(["ws"], Entry.dir)] ["-p", "sub"] =
            Except.ok ([], fs1) ∧
          mkdirCmd ["ws"] ["ws"] fs1 ["-p", "sub"] = Except.ok ([], fs1)) ∧
        (mkdirCmd ["ws"] ["ws"] [(["ws"], Entry.dir)] ["sub"] =
            Except.ok ([], setEntry [(["ws"], Entry.dir)]
              (resolvePath ["ws", "sub"]) Entry.dir) ∧
          mkdirCmd ["ws"] ["ws"]
              (setEntry [(["ws"], Entry.dir)] (resolvePath ["ws", "sub"]) Entry.dir)
              ["sub"] =
            Except.ok ([mkdirExistsMsg "sub"],
              setEntry [(["ws"], Entry.dir)] (resolvePath ["ws", "sub"])
                Entry.dir))) := by
  refine ⟨by rfl, by rfl, by decide, ?_⟩
  refine mkdir_idempotence ["ws"] ["ws"] [(["ws"], Entry.dir)] "sub" ["ws", "sub"]
    (by rfl) (by rfl) (by decide) ?_ (by decide) (by rfl)
  intro q hq c
  rw [show pathInits (resolvePath ["ws", "sub"]) = [["ws"], ["ws", "sub"]] from rfl] at hq
  fin_cases hq <;> simp [lookupFS]

/-- Python `" ".join`. -/
def joinSp : List String → String
  | [] => ""
  | [x] => x
  | x :: xs => x ++ " " ++ joinSp xs

/-- Python `list.index` (only called when the element is present). -/
def idxOf (a : String) : List String → Nat
  | [] => 0
  | x :: xs => if x = a then 0 else idxOf a xs + 1

/-- The redirection marker position: `>>` wins when present, matching the
`if ">>" in args` branch taken first by echo. -/
def echoIdx (args : List String) : Nat :=
  if ">>" ∈ args then idxOf ">>" args else idxOf ">" args

/-- CommandsExecutor.echo, redirection branch (terminal/commands.py, lines
126-141): the tokens before the marker are space-joined and written with
one trailing newline to the write-resolved destination, truncating for `>`
and appending for `>>`; a missing or empty destination token prints an
error line.  (`open` on a directory raises IsADirectoryError and on a
missing parent raises FileNotFoundError, both uncaught here.) -/
def echoWrite (root cwd : AbsPath) (fs : FS) (args : List String) :
    Except PyExc (List String × FS) :=
  match (args.drop (echoIdx args + 1)).head? with
  | none => Except.ok (["echo: no file specified for redirection"], fs)
  | some filename =>
    if filename = "" then Except.ok (["echo: no file specified for redirection"], fs)
    else
      match resolve_write root cwd filename with
      | Except.error m => Except.error (PyExc.sandboxError m)
      | Except.ok target =>
        match lookupFS fs (resolvePath target) with
        | some Entry.dir => Except.error (PyExc.isADirectory (resolvePath target))
        | some (Entry.file old) =>
          Except.ok ([], setEntry fs (resolvePath target)
            (Entry.file ((if decide (">>" ∈ args) then old else []) ++
              (joinSp (args.take (echoIdx args))).data ++ ['\n'])))
        | none =>
          if (resolvePath target).dropLast = [] ∨
              lookupFS fs (resolvePath target).dropLast = some Entry.dir then
            Except.ok ([], setEntry fs (resolvePath target)
              (Entry.file ((joinSp (args.take (echoIdx args))).data ++ ['\n'])))
          else Except.error (PyExc.fileNotFound (resolvePath target))

/-- CommandsExecutor.echo (terminal/commands.py, lines 122-143). -/
def echoCmd (root cwd : AbsPath) (fs : FS) (args : List String) :
    Except PyExc (List String × FS) :=
  if args = [] then Except.ok ([""], fs)
  else if ">" ∈ args ∨ ">>" ∈ args then echoWrite root cwd fs args
  else Except.ok ([joinSp args], fs)

theorem idxOf_append_self (a : String) (xs r : List String) (h : a ∉ xs) :
    idxOf a (xs ++ a :: r) = xs.length := by
  induction xs with
  | nil => simp [idxOf]
  | cons x xs ih =>
    have hx : x ≠ a := fun hxa => h (hxa ▸ List.mem_cons_self x xs)
    rw [List.cons_append, idxOf, if_neg hx,
      ih (fun hmem => h (List.mem_cons_of_mem x hmem))]
    rfl

theorem resolve_write_ok_eq (root cwd : AbsPath) (target : String) (p : AbsPath)
    (h : resolve_write root cwd target = Except.ok p) : p = joinedCand cwd target := by
  rw [resolve_write] at h
  split at h
  · cases h; rfl
  · cases h

theorem strMk_append_newline (s : String) : String.mk (s.data ++ ['\n']) = s ++ "\n" := by
  cases s
  rfl

theorem drop_append_cons_length (xs r : List String) (a : String) :
    (xs ++ a :: r).drop (xs.length + 1) = r := by
  rw [show xs ++ a :: r = (xs ++ [a]) ++ r by simp,
    show xs.length + 1 = (xs ++ [a]).length by simp]
  exact List.drop_left (xs ++ [a]) r

/-- C6 (amended): for every text (as space-joined tokens) whose written
size stays within cat's `100 * 1024` display bound, `echo ... > f` writes
exactly the text plus one newline and `cat f` returns exactly that string;
`echo ... >> f` appends exactly the text plus one newline after the prior
content and `cat f` returns the prior content followed by the text plus one
newline — no extra or missing terminators in the file in either case. -/
theorem echo_cat_roundtrip (root cwd : AbsPath) (fs : FS) (xs : List String)
    (d : String) (target : AbsPath) (old : List Char)
    (hxs1 : ">" ∉ xs) (hxs2 : ">>" ∉ xs)
    (hd2 : d ≠ ">>") (hdne : d ≠ "")
    (hw : resolve_write root cwd d = Except.ok target)
    (hfile : lookupFS fs (resolvePath target) = some (Entry.file old))
    (hin : root <+: resolvePath target)
    (hsz1 : (joinSp xs).data.length + 1 ≤ 100 * 1024)
    (hsz2 : old.length + ((joinSp xs).data.length + 1) ≤ 100 * 1024) :
    (echoCmd root cwd fs (xs ++ [">", d]) = Except.ok ([],
        setEntry fs (resolvePath target)
          (Entry.file ((joinSp xs).data ++ ['\n']))) ∧
      catCmd root cwd
          (setEntry fs (resolvePath target) (Entry.file ((joinSp xs).data ++ ['\n'])))
          [d] =
        [joinSp xs ++ "\n"]) ∧
    (echoCmd root cwd fs (xs ++ [">>", d]) = Except.ok ([],
        setEntry fs (resolvePath target)
          (Entry.file (old ++ ((joinSp xs).data ++ ['\n'])))) ∧
      catCmd root cwd
          (setEntry fs (resolvePath target)
            (Entry.file (old ++ ((joinSp xs).data ++ ['\n']))))
          [d] =
        [String.mk (old ++ ((joinSp xs).data ++ ['\n']))]) := by
  have hres : resolve_read root cwd d = Except.ok (resolvePath target) := by
    have htgt := resolve_write_ok_eq root cwd d target hw
    rw [resolve_read, htgt, if_pos (List.isPrefixOf_iff_prefix.mpr (htgt ▸ hin))]
  have hcat : ∀ c : List Char, ¬ (c.length > 100 * 1024) →
      catCmd root cwd (setEntry fs (resolvePath target) (Entry.file c)) [d] =
        [String.mk c] := by
    intro c hc
    rw [catCmd, if_neg (by simp)]
    simp only [catFiles, hres, lookupFS_setEntry_self]
    rw [if_neg hc]
  constructor
  · have hm2 : ">>" ∉ xs ++ [">", d] := by
      intro hmem
      rcases List.mem_append.mp hmem with h | h
      · exact hxs2 h
      · rcases List.mem_cons.mp h with h | h
        · exact absurd h (by decide)
        · rcases List.mem_cons.mp h with h | h
          · exact hd2 h.symm
          · cases h
    have hidx : echoIdx (xs ++ [">", d]) = xs.length := by
      rw [echoIdx, if_neg hm2]
      exact idxOf_append_self ">" xs [d] hxs1
    have hdrop : ((xs ++ [">", d]).drop (echoIdx (xs ++ [">", d]) + 1)).head? = some d := by
      rw [hidx, drop_append_cons_length xs [d] ">"]
      rfl
    have hecho : echoCmd root cwd fs (xs ++ [">", d]) = Except.ok ([],
        setEntry fs (resolvePath target)
          (Entry.file ((joinSp xs).data ++ ['\n']))) := by
      rw [echoCmd, if_neg (by simp), if_pos (Or.inl (by simp)), echoWrite]
      simp only [hdrop]
      rw [if_neg hdne]
      simp only [hw, hfile, hidx, List.take_left, decide_eq_false hm2,
        Bool.false_eq_true, if_false, List.nil_append]
    refine ⟨hecho, ?_⟩
    have hlt : ¬ (((joinSp xs).data ++ ['\n']).length > 100 * 1024) := by
      intro hgt
      rw [List.length_append] at hgt
      simp only [List.length_cons, List.length_nil] at hgt
      omega
    rw [hcat ((joinSp xs).data ++ ['\n']) hlt, strMk_append_newline]
  · have hm2 : ">>" ∈ xs ++ [">>", d] := by simp
    have hidx : echoIdx (xs ++ [">>", d]) = xs.length := by
      rw [echoIdx, if_pos hm2]
      exact idxOf_append_self ">>" xs [d] hxs2
    have hdrop : ((xs ++ [">>", d]).drop (echoIdx (xs ++ [">>", d]) + 1)).head? = some d := by
      rw [hidx, drop_append_cons_length xs [d] ">>"]
      rfl
    have hecho : echoCmd root cwd fs (xs ++ [">>", d]) = Except.ok ([],
        setEntry fs (resolvePath target)
          (Entry.file (old ++ ((joinSp xs).data ++ ['\n'])))) := by
      rw [echoCmd, if_neg (by simp), if_pos (Or.inr hm2), echoWrite]
      simp only [hdrop]
      rw [if_neg hdne]
      simp only [hw, hfile, hidx, List.take_left, decide_eq_true hm2, if_true,
        List.append_assoc]
    refine ⟨hecho, ?_⟩
    refine hcat (old ++ ((joinSp xs).data ++ ['\n'])) ?_
    intro hgt
    rw [List.length_append, List.length_append] at hgt
    simp only [List.length_cons, List.length_nil] at hgt
    omega

/-- Witness for C6 (amended): `echo hello > f.txt` then `cat f.txt` in a
sandbox where `/ws/f.txt` exists empty. -/
theorem echo_cat_roundtrip_witness :
    resolve_write ["ws"] ["ws"] "f.txt" = Except.ok ["ws", "f.txt"] ∧
      ((echoCmd ["ws"] ["ws"] [(["ws"], Entry.dir), (["ws", "f.txt"], Entry.file [])]
            ["hello", ">", "f.txt"] = Except.ok ([],
          setEntry [(["ws"], Entry.dir), (["ws", "f.txt"], Entry.file [])]
            (resolvePath ["ws", "f.txt"])
            (Entry.file ((joinSp ["hello"]).data ++ ['\n']))) ∧
        catCmd ["ws"] ["ws"]
            (setEntry [(["ws"], Entry.dir), (["ws", "f.txt"], Entry.file [])]
              (resolvePath ["ws", "f.txt"])
              (Entry.file ((joinSp ["hello"]).data ++ ['\n'])))
            ["f.txt"] =
          [joinSp ["hello"] ++ "\n"]) ∧
      (echoCmd ["ws"] ["ws"] [(["ws"], Entry.dir), (["ws", "f.txt"], Entry.file [])]
            ["hello", ">>", "f.txt"] = Except.ok ([],
          setEntry [(["ws"], Entry.dir), (["ws", "f.txt"], Entry.file [])]
            (resolvePath ["ws", "f.txt"])
            (Entry.file ([] ++ ((joinSp ["hello"]).data ++ ['\n'])))) ∧
        catCmd ["ws"] ["ws"]
            (setEntry [(["ws"], Entry.dir), (["ws", "f.txt"], Entry.file [])]
              (resolvePath ["ws", "f.txt"])
              (Entry.file ([] ++ ((joinSp ["hello"]).data ++ ['\n']))))
            ["f.txt"] =
          [String.mk ([] ++ ((joinSp ["hello"]).data ++ ['\n']))])) := by
  refine ⟨by rfl, ?_⟩
  exact echo_cat_roundtrip ["ws"] ["ws"]
    [(["ws"], Entry.dir), (["ws", "f.txt"], Entry.file [])]
    ["hello"] "f.txt" ["ws", "f.txt"] []
    (by decide) (by decide) (by decide) (by decide) (by rfl) (by rfl)
    ⟨["f.txt"], rfl⟩ (by decide) (by decide)

def bigText : String := String.mk (List.replicate 102400 'a')

def fsAfterBigEcho : FS :=
  setEntry [(["ws"], Entry.dir)] ["ws", "f.txt"]
    (Entry.file (List.replicate 102400 'a' ++ ['\n']))

/-- Counterexample for C6: `echo <102400 a-characters> > f.txt` succeeds,
but `cat f.txt` does not return the written text plus one terminator — the
written file is 102401 bytes, which exceeds cat's `100 * 1024` display
bound, so cat prints the too-large notice instead. -/
theorem echo_cat_roundtrip_counterexample :
    echoCmd ["ws"] ["ws"] [(["ws"], Entry.dir)] [bigText, ">", "f.txt"] =
        Except.ok ([], fsAfterBigEcho) ∧
      catCmd ["ws"] ["ws"] fsAfterBigEcho ["f.txt"] =
        [catTooLargeMsg ["ws"] ["ws", "f.txt"]
          (List.replicate 102400 'a' ++ ['\n']).length] ∧
      ∀ out : List String,
        catCmd ["ws"] ["ws"] fsAfterBigEcho ["f.txt"] = out →
          out ≠ [bigText ++ "\n"] := by
  have hlen : (List.replicate 102400 'a' ++ ['\n']).length = 102401 := by
    rw [List.length_append, List.length_replicate]
    decide
  have hsize : (List.replicate 102400 'a' ++ ['\n']).length > 100 * 1024 := by
    rw [hlen]; decide
  have hres : resolve_read ["ws"] ["ws"] "f.txt" = Except.ok ["ws", "f.txt"] := by rfl
  have hfile : lookupFS fsAfterBigEcho ["ws", "f.txt"] =
      some (Entry.file (List.replicate 102400 'a' ++ ['\n'])) := by rfl
  have hcat : catCmd ["ws"] ["ws"] fsAfterBigEcho ["f.txt"] =
      [catTooLargeMsg ["ws"] ["ws", "f.txt"]
        (List.replicate 102400 'a' ++ ['\n']).length] := by
    rw [catCmd, if_neg (by simp)]
    simp only [catFiles, hres, hfile]
    rw [if_pos hsize]
  refine ⟨by rfl, hcat, ?_⟩
  intro out hout heq
  rw [hcat] at hout
  subst hout
  have hmsg : (catTooLargeMsg ["ws"] ["ws", "f.txt"]
      (List.replicate 102400 'a' ++ ['\n']).length) = bigText ++ "\n" := by
    injection heq
  have hdlen := congrArg (fun s => s.data.length) hmsg
  simp only [] at hdlen
  have hR : (bigText ++ "\n").data.length = 102401 := by
    show (List.replicate 102400 'a' ++ ['\n']).length = 102401
    exact hlen
  rw [hR, hlen] at hdlen
  exact absurd hdlen (by decide)

/-- Python `any(ch in a for ch in ("*", "?", "["))`. -/
def hasWildcard (s : String) : Bool :=
  s.data.contains '*' || s.data.contains '?' || s.data.contains '['

/-- `Path(a).is_absolute()` on POSIX. -/
def isAbsTok (s : String) : Bool := s.data.head? = some '/'

/-- `str(base / a)` for a string pattern: pathlib joins with exactly one
separator (the base keeps no trailing slash except the OS root). -/
def pjoin (base a : String) : String :=
  if base.data.getLast? = some '/' then base ++ a else base ++ "/" ++ a

/-- Byte-wise lexicographic comparison on character lists (Python string
ordering for the code-point range used here). -/
def lexLe : List Char → List Char → Bool
  | [], _ => true
  | _ :: _, [] => false
  | a :: as, b :: bs =>
    if a.toNat < b.toNat then true
    else if b.toNat < a.toNat then false
    else lexLe as bs

def strLe (a b : String) : Bool := lexLe a.data b.data

/-- Python `sorted` on strings: a stable sort under lexicographic order. -/
def pySorted (l : List String) : List String :=
  List.insertionSort (fun a b => strLe a b = true) l

/-- expand_args_with_glob, one token (terminal/utils.py, lines 31-46).
`g` is the `glob.glob(pattern, recursive=True)` collaborator and `res` the
`Path(...).resolve()` collaborator; the policy (cursor first, root
fallback, literal passthrough, sort before substitution) is the code under
verification. -/
def expandOne (g : String → List String) (res : String → String)
    (cwdS rootS : String) (a : String) : List String :=
  if hasWildcard a then
    if g (if isAbsTok a then a else pjoin cwdS a) ≠ [] then
      (pySorted (g (if isAbsTok a then a else pjoin cwdS a))).map res
    else if g (if isAbsTok a then a else pjoin rootS a) ≠ [] then
      (pySorted (g (if isAbsTok a then a else pjoin rootS a))).map res
    else [a]
  else [a]

/-- expand_args_with_glob (terminal/utils.py, lines 25-47). -/
def expand_args_with_glob (g : String → List String) (res : String → String)
    (cwdS rootS : String) : List String → List String
  | [] => []
  | a :: rest =>
    expandOne g res cwdS rootS a ++ expand_args_with_glob g res cwdS rootS rest

theorem lexLe_trans (x : List Char) : ∀ y z : List Char,
    lexLe x y = true → lexLe y z = true → lexLe x z = true := by
  induction x with
  | nil => intro y z _ _; rfl
  | cons a as ih =>
    intro y z h1 h2
    cases y with
    | nil => simp [lexLe] at h1
    | cons b bs =>
      cases z with
      | nil => simp [lexLe] at h2
      | cons c cs =>
        simp only [lexLe] at h1 h2 ⊢
        by_cases hab : a.toNat < b.toNat
        · by_cases hbc : b.toNat < c.toNat
          · rw [if_pos (show a.toNat < c.toNat by omega)]
          · rw [if_neg hbc] at h2
            by_cases hcb : c.toNat < b.toNat
            · rw [if_pos hcb] at h2; cases h2
            · rw [if_pos (show a.toNat < c.toNat by omega)]
        · rw [if_neg hab] at h1
          by_cases hba : b.toNat < a.toNat
          · rw [if_pos hba] at h1; cases h1
          · rw [if_neg hba] at h1
            by_cases hbc : b.toNat < c.toNat
            · rw [if_pos (show a.toNat < c.toNat by omega)]
            · rw [if_neg hbc] at h2
              by_cases hcb : c.toNat < b.toNat
              · rw [if_pos hcb] at h2; cases h2
              · rw [if_neg hcb] at h2
                rw [if_neg (show ¬ a.toNat < c.toNat by omega),
                  if_neg (show ¬ c.toNat < a.toNat by omega)]
                exact ih bs cs h1 h2

theorem lexLe_total (x : List Char) : ∀ y : List Char,
    lexLe x y = true ∨ lexLe y x = true := by
  induction x with
  | nil => intro y; exact Or.inl rfl
  | cons a as ih =>
    intro y
    cases y with
    | nil => exact Or.inr rfl
    | cons b bs =>
      simp only [lexLe]
      by_cases hab : a.toNat < b.toNat
      · exact Or.inl (by rw [if_pos hab])
      · by_cases hba : b.toNat < a.toNat
        · exact Or.inr (by rw [if_pos hba])
        · rw [if_neg hab, if_neg hba, if_neg hba, if_neg hab]
          exact ih bs

theorem pySorted_sorted (l : List String) :
    List.Sorted (fun a b => strLe a b = true) (pySorted l) := by
  have htot : IsTotal String (fun a b => strLe a b = true) :=
    ⟨fun a b => lexLe_total a.data b.data⟩
  have htrans : IsTrans String (fun a b => strLe a b = true) :=
    ⟨fun a b c => lexLe_trans a.data b.data c.data⟩
  exact List.sorted_insertionSort _ l

theorem pySorted_perm (l : List String) : List.Perm (pySorted l) l :=
  List.perm_insertionSort _ l

/-- C7: a wildcard token is matched first rooted at the session cursor,
re-tried rooted at the confinement root only on zero matches, and passed
through literally when both fail; matches are sorted lexicographically
before substitution (then resolved), and substitution is in place — the
surrounding tokens keep their positions.  Non-wildcard tokens pass through
unchanged. -/
theorem glob_expansion_policy (g : String → List String) (res : String → String)
    (cwdS rootS : String) (a : String) (xs ys : List String) :
    (expand_args_with_glob g res cwdS rootS (xs ++ a :: ys) =
      expand_args_with_glob g res cwdS rootS xs ++ expandOne g res cwdS rootS a ++
        expand_args_with_glob g res cwdS rootS ys) ∧
    (hasWildcard a = false → expandOne g res cwdS rootS a = [a]) ∧
    (hasWildcard a = true →
      g (if isAbsTok a then a else pjoin cwdS a) ≠ [] →
      expandOne g res cwdS rootS a =
        (pySorted (g (if isAbsTok a then a else pjoin cwdS a))).map res ∧
      List.Sorted (fun x y => strLe x y = true)
        (pySorted (g (if isAbsTok a then a else pjoin cwdS a))) ∧
      List.Perm (pySorted (g (if isAbsTok a then a else pjoin cwdS a)))
        (g (if isAbsTok a then a else pjoin cwdS a))) ∧
    (hasWildcard a = true →
      g (if isAbsTok a then a else pjoin cwdS a) = [] →
      g (if isAbsTok a then a else pjoin rootS a) ≠ [] →
      expandOne g res cwdS rootS a =
        (pySorted (g (if isAbsTok a then a else pjoin rootS a))).map res) ∧
    (hasWildcard a = true →
      g (if isAbsTok a then a else pjoin cwdS a) = [] →
      g (if isAbsTok a then a else pjoin rootS a) = [] →
      expandOne g res cwdS rootS a = [a]) := by
  refine ⟨?_, ?_, ?_, ?_, ?_⟩
  · induction xs with
    | nil => rfl
    | cons x xs ih =>
      simp only [List.cons_append, expand_args_with_glob, List.append_eq, ih,
        List.append_assoc]
  · intro hw
    rw [expandOne, hw]
    rfl
  · intro hw hne
    rw [expandOne, hw]
    exact ⟨by rw [if_pos rfl, if_pos hne], pySorted_sorted _, pySorted_perm _⟩
  · intro hw h1 h2
    rw [expandOne, hw]
    rw [if_pos rfl, if_neg (by simp [h1]), if_pos h2]
  · intro hw h1 h2
    rw [expandOne, hw]
    rw [if_pos rfl, if_neg (by simp [h1]), if_neg (by simp [h2])]

/-- Witness for C7: the matcher returns two matches (unsorted) for the
cursor-rooted pattern `/ws/*.txt`; the token `*.txt` expands in place to
the sorted matches, and the preceding token keeps its position. -/
theorem glob_expansion_policy_witness :
    hasWildcard "*.txt" = true ∧
      (fun p => if p = "/ws/*.txt" then ["/ws/b.txt", "/ws/a.txt"]
        else ([] : List String))
        (if isAbsTok "*.txt" then "*.txt" else pjoin "/ws" "*.txt") ≠ [] ∧
      expand_args_with_glob
          (fun p => if p = "/ws/*.txt" then ["/ws/b.txt", "/ws/a.txt"]
            else ([] : List String))
          (fun s => s) "/ws" "/ws" (["cat"] ++ "*.txt" :: []) =
        ["cat", "/ws/a.txt", "/ws/b.txt"] := by
  refine ⟨by rfl, by decide, ?_⟩
  have h := glob_expansion_policy
    (fun p => if p = "/ws/*.txt" then ["/ws/b.txt", "/ws/a.txt"]
      else ([] : List String))
    (fun s => s) "/ws" "/ws" "*.txt" ["cat"] []
  rw [h.1, (h.2.2.1 (by rfl) (by decide)).1]
  decide

def cpNotDirMsg (root p : AbsPath) : String :=
  "cp: target \x27" ++ to_sandbox_posix p root ++ "\x27 is not a directory"

def cpOmitDirMsg (root p : AbsPath) : String :=
  "cp: -r not specified; omitting directory \x27" ++ to_sandbox_posix p root ++ "\x27"

/-- `shutil.copy2(src, dst)`: copy the file content; a missing source
raises FileNotFoundError, a directory source raises IsADirectoryError. -/
def copy2 (fs : FS) (src dst : AbsPath) : Except PyExc FS :=
  match lookupFS fs src with
  | some (Entry.file c) => Except.ok (setEntry fs dst (Entry.file c))
  | some Entry.dir => Except.error (PyExc.isADirectory src)
  | none => Except.error (PyExc.fileNotFound src)

/-- The multi-source loop of cp: each source is read-resolved and copied
into the destination directory when it is a regular file (non-files are
silently skipped by the `if s_path.is_file()` guard). -/
def cpMulti (root cwd : AbsPath) (destR : AbsPath) (fs : FS) :
    List String → Except PyExc FS
  | [] => Except.ok fs
  | s :: rest =>
    match resolve_read root cwd s with
    | Except.error m => Except.error (PyExc.sandboxError m)
    | Except.ok sp =>
      match lookupFS fs sp with
      | some (Entry.file c) =>
        cpMulti root cwd destR
          (setEntry fs (destR ++ [sp.getLastD ""]) (Entry.file c)) rest
      | _ => cpMulti root cwd destR fs rest

/-- CommandsExecutor.cp (terminal/commands.py, lines 146-170).  The last
argument is the write-resolved destination; with several sources the
destination must be an existing directory; a single directory source is
only reported as omitted; otherwise `shutil.copy2` runs (into the
directory, or onto the destination path), and its exceptions — e.g.
FileNotFoundError for a missing source — are not caught anywhere in cp. -/
def cpCmd (root cwd : AbsPath) (fs : FS) (args : List String) :
    Except PyExc (List String × FS) :=
  if args.length < 2 then Except.ok (["cp: missing operand"], fs)
  else
    match resolve_write root cwd (args.getLastD "") with
    | Except.error m => Except.error (PyExc.sandboxError m)
    | Except.ok destT =>
      if args.dropLast.length > 1 then
        if lookupFS fs (resolvePath destT) = some Entry.dir then
          match cpMulti root cwd (resolvePath destT) fs args.dropLast with
          | Except.ok fs2 => Except.ok ([], fs2)
          | Except.error e => Except.error e
        else Except.ok ([cpNotDirMsg root (resolvePath destT)], fs)
      else
        match resolve_read root cwd (args.dropLast.headD "") with
        | Except.error m => Except.error (PyExc.sandboxError m)
        | Except.ok sp =>
          if lookupFS fs sp = some Entry.dir then
            Except.ok ([cpOmitDirMsg root sp], fs)
          else if lookupFS fs (resolvePath destT) = some Entry.dir then
            match copy2 fs sp (resolvePath destT ++ [sp.getLastD ""]) with
            | Except.ok fs2 => Except.ok ([], fs2)
            | Except.error e => Except.error e
          else
            match copy2 fs sp (resolvePath destT) with
            | Except.ok fs2 => Except.ok ([], fs2)
            | Except.error e => Except.error e

/-- Per-session mutable state owned by the engine: cursor and filesystem. -/
structure St where
  cwd : AbsPath
  fs : FS
deriving DecidableEq, Repr

/-- The observable outcome of `TerminalCLI.execute_line` on one line:
printed lines with the updated state, or an exception escaping the
`except SandboxError` dispatch handler. -/
inductive Outcome
  | ok (out : List String) (st : St)
  | crashed (e : PyExc) (st : St)
deriving DecidableEq, Repr

/-- CommandsExecutor.pwd (terminal/commands.py, lines 37-39); the cursor is
inside the root by the session invariant. -/
def pwdOut (root cwd : AbsPath) : String :=
  if cwd.drop root.length = [] then "/" else "/" ++ joinSlash (cwd.drop root.length)

/-- CommandsExecutor.cd (terminal/commands.py, lines 41-49). -/
def cdCmd (root : AbsPath) (st : St) (args : List String) :
    Except PyExc (List String × St) :=
  if args = [] then Except.ok ([], { st with cwd := root })
  else
    match resolve_read root st.cwd (args.headD "") with
    | Except.error m => Except.error (PyExc.sandboxError m)
    | Except.ok t =>
      if lookupFS st.fs t = some Entry.dir then Except.ok ([], { st with cwd := t })
      else Except.ok (["cd: no such directory: " ++ to_sandbox_posix t root], st)

def liftFs (st : St) : Except PyExc (List String × FS) → Except PyExc (List String × St)
  | Except.error e => Except.error e
  | Except.ok (out, fs) => Except.ok (out, { st with fs := fs })

/-- The handler table of TerminalCLI.execute_line (terminal/cli.py, lines
90-110), restricted to the handlers modelled in this development (the
claims under verification only exercise these); names outside the table
fall through to the unknown-command line, as in the code. -/
def dispatch (root : AbsPath) (st : St) (cmd : String) (args : List String) :
    Option (Except PyExc (List String × St)) :=
  if cmd = "pwd" then some (Except.ok ([pwdOut root st.cwd], st))
  else if cmd = "cd" then some (cdCmd root st args)
  else if cmd = "mkdir" then some (liftFs st (mkdirCmd root st.cwd st.fs args))
  else if cmd = "rm" then some (liftFs st (rmCmd root st.cwd st.fs args))
  else if cmd = "cat" then some (Except.ok (catCmd root st.cwd st.fs args, st))
  else if cmd = "echo" then some (liftFs st (echoCmd root st.cwd st.fs args))
  else if cmd = "cp" then some (liftFs st (cpCmd root st.cwd st.fs args))
  else none

/-- The absolute POSIX text of a path (for the glob pattern bases). -/
def pathPosix (p : AbsPath) : String := "/" ++ joinSlash p

/-- TerminalCLI.execute_line (terminal/cli.py, lines 76-120): tokenize
(tokens are given pre-split here), glob-expand the arguments, dispatch, and
catch only SandboxError at the dispatch boundary; `exit`/`quit` raise
EOFError through it; every other exception escapes execute_line. -/
def executeLine (g : String → List String) (res : String → String)
    (root : AbsPath) (st : St) (line : List String) : Outcome :=
  match line with
  | [] => Outcome.ok [] st
  | cmd :: rawArgs =>
    if cmd = "exit" ∨ cmd = "quit" then Outcome.crashed PyExc.eofError st
    else
      match dispatch root st cmd
        (expand_args_with_glob g res (pathPosix st.cwd) (pathPosix root) rawArgs) with
      | none => Outcome.ok ["Unknown command: " ++ cmd ++ ". Type \x27help\x27."] st
      | some (Except.ok (out, st2)) => Outcome.ok out st2
      | some (Except.error (PyExc.sandboxError m)) => Outcome.ok [m] st
      | some (Except.error e) => Outcome.crashed e st

/-- How the read-eval loop of TerminalCLI.run ends. -/
inductive SessionEnd
  | exitRequested
  | inputExhausted
  | aborted (e : PyExc)
deriving DecidableEq, Repr

/-- TerminalCLI.run (terminal/cli.py, lines 122-139): feed lines to
execute_line; EOFError (from exit/quit or end of input) breaks the loop
normally; any other exception escaping execute_line is caught nowhere
(the outer handler only catches KeyboardInterrupt and EOFError), so the
session aborts and the remaining lines are never processed. -/
def runSession (g : String → List String) (res : String → String)
    (root : AbsPath) : St → List (List String) → List String × SessionEnd
  | _, [] => ([], SessionEnd.inputExhausted)
  | st, l :: ls =>
    match executeLine g res root st l with
    | Outcome.ok out st2 =>
      (out ++ (runSession g res root st2 ls).1, (runSession g res root st2 ls).2)
    | Outcome.crashed PyExc.eofError _ => ([], SessionEnd.exitRequested)
    | Outcome.crashed e _ => ([], SessionEnd.aborted e)

/-- C3 (code bug): the dispatch boundary catches only SandboxError, so the
FileNotFoundError raised by `shutil.copy2` for `cp missing.txt dest.txt`
escapes execute_line and run's loop (whose handler catches only
KeyboardInterrupt and EOFError) and terminates the session: the follow-up
`pwd` line is never processed and produces no output.  The claim — every
per-command error is caught and formatted and the loop continues — is the
spec's and the sibling implementation's (terminal.py run catches every
Exception) evident intent, which this code violates. -/
theorem cp_missing_source_aborts_session (g : String → List String)
    (res : String → String) :
    executeLine g res ["ws"] ⟨["ws"], [(["ws"], Entry.dir)]⟩
        ["cp", "missing.txt", "dest.txt"] =
      Outcome.crashed (PyExc.fileNotFound ["ws", "missing.txt"])
        ⟨["ws"], [(["ws"], Entry.dir)]⟩ ∧
    runSession g res ["ws"] ⟨["ws"], [(["ws"], Entry.dir)]⟩
        [["cp", "missing.txt", "dest.txt"], ["pwd"]] =
      ([], SessionEnd.aborted (PyExc.fileNotFound ["ws", "missing.txt"])) :=
  ⟨rfl, rfl⟩

/-- JSON values as produced by `json.loads` (numbers restricted to
integers; the resize fields are integral in the protocol). -/
inductive JVal
  | jnull
  | jbool (b : Bool)
  | jint (n : Int)
  | jstr (s : String)
  | jarr (elts : List JVal)
  | jobj (fields : List (String × JVal))

def isWsChar (c : Char) : Bool := c = ' ' || c = '\t' || c = '\n' || c = '\r'

def stripWs (l : List Char) : List Char :=
  ((l.dropWhile isWsChar).reverse.dropWhile isWsChar).reverse

/-- `text.strip().startswith("\x7b")` from websocket_pty. -/
def startsBrace (s : String) : Bool := (stripWs s.data).head? = some '\x7b'

/-- Python dict lookup built from a field list: the last duplicate key
wins, as in dict construction. -/
def objLookup : List (String × JVal) → String → Option JVal
  | [], _ => none
  | (k, v) :: rest, key =>
    match objLookup rest key with
    | some r => some r
    | none => if k = key then some v else none

def digitVal? (c : Char) : Option Nat :=
  if 48 ≤ c.toNat ∧ c.toNat ≤ 57 then some (c.toNat - 48) else none

def natOfDigitsGo (acc : Nat) : List Char → Option Nat
  | [] => some acc
  | c :: cs =>
    match digitVal? c with
    | some d => natOfDigitsGo (acc * 10 + d) cs
    | none => none

def natOfDigits : List Char → Option Nat
  | [] => none
  | cs => natOfDigitsGo 0 cs

/-- Python `int(str)`: optional sign and decimal digits with surrounding
whitespace (underscore grouping not modelled). -/
def pyStrToInt (s : String) : Option Int :=
  match stripWs s.data with
  | '-' :: cs => (natOfDigits cs).map (fun n => -(n : Int))
  | '+' :: cs => (natOfDigits cs).map (fun n => (n : Int))
  | cs => (natOfDigits cs).map (fun n => (n : Int))

/-- Python `int(x)` on a JSON value; `none` models the raised exception
(caught by the outer handler, which then falls through to the write). -/
def pyToInt : JVal → Option Int
  | JVal.jint n => some n
  | JVal.jbool b => some (if b then 1 else 0)
  | JVal.jstr s => pyStrToInt s
  | _ => none

/-- `j.get(key, default)` followed by `int(...)`. -/
def jsonGetInt (fields : List (String × JVal)) (key : String) (dflt : Int) :
    Option Int :=
  match objLookup fields key with
  | none => some dflt
  | some v => pyToInt v

/-- `j.get("type") == "resize"`: in Python only an equal string compares
equal to a string. -/
def isResizeVal : Option JVal → Bool
  | some (JVal.jstr s) => decide (s = "resize")
  | _ => false

/-- One payload written to the pty master descriptor. -/
inductive PtyData
  | textData (s : String)
  | binData (b : List Nat)
deriving DecidableEq, Repr

/-- The effect of one inbound websocket message: the payloads written to
the master descriptor, and the geometry applied via TIOCSWINSZ (if any). -/
structure MsgEffect where
  writes : List PtyData
  winsize : Option (Int × Int)
deriving Repr

/-- An inbound websocket data message: text together with its
`json.loads` result (`none` when parsing raises), or binary. -/
inductive InMsg
  | text (s : String) (parsed : Option JVal)
  | bin (b : List Nat)

/-- The inbound-message classification of websocket_pty
(terminal/web.py, lines 78-113).  A stripped text starting with a brace is
parsed; a dict whose `type` equals `resize` has rows/cols converted with
`int` (defaults 24/80) and is never forwarded: `struct.pack("HHHH", ...)`
succeeds exactly when both values fit an unsigned 16-bit field, otherwise
the inner handler swallows the error and the loop just continues; a failed
`int(...)` is caught by the outer handler and the message falls through to
`os.write` like any non-resize payload.  Everything else (non-JSON text,
non-dict JSON, dicts without the resize type, binary frames) is written to
the master descriptor verbatim. -/
def handleInMsg : InMsg → MsgEffect
  | InMsg.bin b => ⟨[PtyData.binData b], none⟩
  | InMsg.text s parsed =>
    if startsBrace s then
      match parsed with
      | some (JVal.jobj fields) =>
        if isResizeVal (objLookup fields "type") then
          match jsonGetInt fields "rows" 24, jsonGetInt fields "cols" 80 with
          | some r, some c =>
            ⟨[], if 0 ≤ r ∧ r < 65536 ∧ 0 ≤ c ∧ c < 65536 then some (r, c) else none⟩
          | _, _ => ⟨[PtyData.textData s], none⟩
        else ⟨[PtyData.textData s], none⟩
      | _ => ⟨[PtyData.textData s], none⟩
    else ⟨[PtyData.textData s], none⟩

/-- Counterexample for C8: the well-formed resize message with rows 65536
is not forwarded, but the geometry is NOT updated either —
`struct.pack("HHHH", 65536, 80, 0, 0)` raises (65536 does not fit an
unsigned 16-bit field), the inner handler swallows the error, and the loop
continues; the claim asserts every structured resize message updates the
geometry. -/
theorem resize_oversize_counterexample :
    (handleInMsg (InMsg.text
        "\x7b\"type\":\"resize\",\"rows\":65536,\"cols\":80\x7d"
        (some (JVal.jobj [("type", JVal.jstr "resize"), ("rows", JVal.jint 65536),
          ("cols", JVal.jint 80)])))).writes = [] ∧
      (handleInMsg (InMsg.text
        "\x7b\"type\":\"resize\",\"rows\":65536,\"cols\":80\x7d"
        (some (JVal.jobj [("type", JVal.jstr "resize"), ("rows", JVal.jint 65536),
          ("cols", JVal.jint 80)])))).winsize = none ∧
      (handleInMsg (InMsg.text
        "\x7b\"type\":\"resize\",\"rows\":65536,\"cols\":80\x7d"
        (some (JVal.jobj [("type", JVal.jstr "resize"), ("rows", JVal.jint 65536),
          ("cols", JVal.jint 80)])))).winsize.isSome = false := by
  refine ⟨rfl, ?_, ?_⟩ <;>
    simp only [handleInMsg, jsonGetInt, objLookup, isResizeVal, pyToInt] <;>
    decide

/-- C8 (amended): a structured resize message with integer rows R and cols
C is never written to the child's input stream; the geometry is updated
exactly when both R and C are representable as unsigned 16-bit values
(struct pack `HHHH`), and is left unchanged (still without forwarding)
otherwise.  Every other payload — text not starting with a brace, invalid
JSON, non-dict JSON, dicts whose type is not `resize`, and binary frames —
is written verbatim to the master descriptor and never changes the
geometry. -/
theorem resize_control_policy (text : String) (fields : List (String × JVal))
    (r c : Int)
    (ht : startsBrace text = true)
    (hty : objLookup fields "type" = some (JVal.jstr "resize"))
    (hr : objLookup fields "rows" = some (JVal.jint r))
    (hc : objLookup fields "cols" = some (JVal.jint c)) :
    ((handleInMsg (InMsg.text text (some (JVal.jobj fields)))).writes = [] ∧
      (handleInMsg (InMsg.text text (some (JVal.jobj fields)))).winsize =
        (if 0 ≤ r ∧ r < 65536 ∧ 0 ≤ c ∧ c < 65536 then some (r, c) else none)) ∧
    (∀ s op, startsBrace s = false →
      handleInMsg (InMsg.text s op) = ⟨[PtyData.textData s], none⟩) ∧
    (∀ s, handleInMsg (InMsg.text s none) = ⟨[PtyData.textData s], none⟩) ∧
    (∀ s fields2, isResizeVal (objLookup fields2 "type") = false →
      handleInMsg (InMsg.text s (some (JVal.jobj fields2))) =
        ⟨[PtyData.textData s], none⟩) ∧
    (∀ s v, (∀ fields3, v ≠ JVal.jobj fields3) →
      handleInMsg (InMsg.text s (some v)) = ⟨[PtyData.textData s], none⟩) ∧
    (∀ b, handleInMsg (InMsg.bin b) = ⟨[PtyData.binData b], none⟩) := by
  have hres : isResizeVal (objLookup fields "type") = true := by
    rw [hty]
    rfl
  have hmain : handleInMsg (InMsg.text text (some (JVal.jobj fields))) =
      ⟨[], if 0 ≤ r ∧ r < 65536 ∧ 0 ≤ c ∧ c < 65536 then some (r, c) else none⟩ := by
    simp only [handleInMsg, if_pos ht, if_pos hres, jsonGetInt, hr, hc, pyToInt]
  refine ⟨⟨by rw [hmain], by rw [hmain]⟩, ?_, ?_, ?_, ?_, ?_⟩
  · intro s op hs
    simp only [handleInMsg, hs, Bool.false_eq_true, if_false]
  · intro s
    simp only [handleInMsg]
    split <;> rfl
  · intro s fields2 hf
    simp only [handleInMsg, hf, Bool.false_eq_true, if_false]
    split <;> rfl
  · intro s v hv
    cases v with
    | jobj f => exact absurd rfl (hv f)
    | jnull => simp only [handleInMsg]; split <;> rfl
    | jbool b => simp only [handleInMsg]; split <;> rfl
    | jint n => simp only [handleInMsg]; split <;> rfl
    | jstr s2 => simp only [handleInMsg]; split <;> rfl
    | jarr l => simp only [handleInMsg]; split <;> rfl
  · intro b
    rfl

/-- Witness for C8 (amended): a resize message with rows 24 and cols 80 is
not forwarded and the geometry becomes (24, 80). -/
theorem resize_control_policy_witness :
    startsBrace "\x7b\"type\":\"resize\",\"rows\":24,\"cols\":80\x7d" = true ∧
      objLookup [("type", JVal.jstr "resize"), ("rows", JVal.jint 24),
        ("cols", JVal.jint 80)] "type" = some (JVal.jstr "resize") ∧
      (handleInMsg (InMsg.text "\x7b\"type\":\"resize\",\"rows\":24,\"cols\":80\x7d"
        (some (JVal.jobj [("type", JVal.jstr "resize"), ("rows", JVal.jint 24),
          ("cols", JVal.jint 80)])))).writes = [] ∧
      (handleInMsg (InMsg.text "\x7b\"type\":\"resize\",\"rows\":24,\"cols\":80\x7d"
        (some (JVal.jobj [("type", JVal.jstr "resize"), ("rows", JVal.jint 24),
          ("cols", JVal.jint 80)])))).winsize = some (24, 80) := by
  have h := resize_control_policy
    "\x7b\"type\":\"resize\",\"rows\":24,\"cols\":80\x7d"
    [("type", JVal.jstr "resize"), ("rows", JVal.jint 24), ("cols", JVal.jint 80)]
    24 80 (by rfl) (by rfl) (by rfl) (by rfl)
  refine ⟨by rfl, by rfl, h.1.1, ?_⟩
  rw [h.1.2]
  decide

/-- One serialized event reaching the bridge loop: an inbound message, the
remote disconnect, readability EOF from the child (the read callback then
schedules `ws.close()`, which surfaces later as a disconnect event), or an
error raised out of `receive`. -/
inductive BrEvent
  | recv (m : InMsg)
  | disconnect
  | ptyEOF
  | wsError

/-- Observable bridge actions. -/
inductive BrAction
  | writePty (d : PtyData)
  | setWin (r c : Int)
  | schedClose
  | removeReader
  | closeFd
  | killChild
deriving DecidableEq, Repr

def msgActs (m : InMsg) : List BrAction :=
  ((handleInMsg m).writes.map BrAction.writePty) ++
    (match (handleInMsg m).winsize with
     | some (r, c) => [BrAction.setWin r c]
     | none => [])

def teardownActs : List BrAction :=
  [BrAction.removeReader, BrAction.closeFd, BrAction.killChild]

/-- websocket_pty relay loop and its `finally` block (terminal/web.py,
lines 74-132).  asyncio serializes both event sources into one loop; the
loop breaks on the first disconnect, any exception out of `receive`
propagates, and the single `finally` block then deregisters the reader,
closes the master descriptor and signals the child; events after the first
terminating event are never processed. -/
def runBridge : List BrEvent → List BrAction
  | [] => []
  | BrEvent.disconnect :: _ => teardownActs
  | BrEvent.wsError :: _ => teardownActs
  | BrEvent.ptyEOF :: rest => BrAction.schedClose :: runBridge rest
  | BrEvent.recv m :: rest => msgActs m ++ runBridge rest

theorem msgActs_count_zero (m : InMsg) (a : BrAction)
    (ha1 : ∀ d, a ≠ BrAction.writePty d)
    (ha2 : ∀ r c, a ≠ BrAction.setWin r c) :
    (msgActs m).count a = 0 := by
  rw [List.count_eq_zero]
  intro hmem
  rw [msgActs] at hmem
  rcases List.mem_append.mp hmem with hmem | hmem
  · obtain ⟨d, _, hd⟩ := List.mem_map.mp hmem
    exact ha1 d hd.symm
  · split at hmem
    case h_1 r c _ =>
      rcases List.mem_cons.mp hmem with hd | hd
      · exact ha2 r c hd
      · cases hd
    case h_2 => cases hmem

/-- C9: whatever the interleaving of triggers (remote disconnect, child
EOF, receive error) in the serialized event stream, once a terminating
event occurs the bridge performs the teardown exactly once: one reader
deregistration, one close of the master descriptor, one termination signal
to the child — even when disconnect and EOF race (both present, in any
order and multiplicity). -/
theorem teardown_exactly_once (events : List BrEvent)
    (h : BrEvent.disconnect ∈ events ∨ BrEvent.wsError ∈ events) :
    (runBridge events).count BrAction.killChild = 1 ∧
      (runBridge events).count BrAction.closeFd = 1 ∧
      (runBridge events).count BrAction.removeReader = 1 := by
  induction events with
  | nil => rcases h with h | h <;> cases h
  | cons ev rest ih =>
    cases ev with
    | disconnect => refine ⟨?_, ?_, ?_⟩ <;> rw [runBridge] <;> decide
    | wsError => refine ⟨?_, ?_, ?_⟩ <;> rw [runBridge] <;> decide
    | ptyEOF =>
      have h' : BrEvent.disconnect ∈ rest ∨ BrEvent.wsError ∈ rest := by
        rcases h with h | h
        · exact Or.inl (by simpa using h)
        · exact Or.inr (by simpa using h)
      obtain ⟨h1, h2, h3⟩ := ih h'
      rw [runBridge]
      refine ⟨?_, ?_, ?_⟩ <;> simp [List.count_cons, h1, h2, h3]
    | recv m =>
      have h' : BrEvent.disconnect ∈ rest ∨ BrEvent.wsError ∈ rest := by
        rcases h with h | h
        · exact Or.inl (by simpa using h)
        · exact Or.inr (by simpa using h)
      obtain ⟨h1, h2, h3⟩ := ih h'
      rw [runBridge]
      refine ⟨?_, ?_, ?_⟩ <;>
        rw [List.count_append] <;>
        rw [msgActs_count_zero m _ (fun d hd => by cases hd) (fun r c hd => by cases hd)]
      · simpa using h1
      · simpa using h2
      · simpa using h3

/-- Witness for C9: child EOF and remote disconnect racing (both firing
twice, interleaved) still produce exactly one teardown. -/
theorem teardown_exactly_once_witness :
    (BrEvent.disconnect ∈
        [BrEvent.ptyEOF, BrEvent.disconnect, BrEvent.ptyEOF, BrEvent.disconnect] ∨
      BrEvent.wsError ∈
        [BrEvent.ptyEOF, BrEvent.disconnect, BrEvent.ptyEOF, BrEvent.disconnect]) ∧
      ((runBridge [BrEvent.ptyEOF, BrEvent.disconnect, BrEvent.ptyEOF,
          BrEvent.disconnect]).count BrAction.killChild = 1 ∧
        (runBridge [BrEvent.ptyEOF, BrEvent.disconnect, BrEvent.ptyEOF,
          BrEvent.disconnect]).count BrAction.closeFd = 1 ∧
        (runBridge [BrEvent.ptyEOF, BrEvent.disconnect, BrEvent.ptyEOF,
          BrEvent.disconnect]).count BrAction.removeReader = 1) :=
  ⟨Or.inl (by simp),
    teardown_exactly_once
      [BrEvent.ptyEOF, BrEvent.disconnect, BrEvent.ptyEOF, BrEvent.disconnect]
      (Or.inl (by simp))⟩

end Terminal
